import Mathlib

/-!
Verification of the TransparenCity proposal / voting / audit bookkeeping.

The definitions below are shallow embeddings of:
  * the `TransparenCityGovernance` Solidity contract
    (proposal lifecycle, vote casting, automatic closing, on-chain audit trail);
  * the `TransparentAuditTrail` Solidity contract
    (append-only audit records with per-proposal and per-actor indices);
  * the Express/Mongoose controllers for votes and official responses
    (`addVote`, `getVotes`, `updateVote`, `createOfficialResponse`,
     `updateOfficialResponse`) together with the Mongoose schema defaults.

Addresses, timestamps and document ids are modelled as `Nat` / `String`.
Solidity 0.8 checked arithmetic never wraps (it reverts on overflow), so
counters are modelled as unbounded `Nat`; Mongoose numeric fields are JS
numbers and are modelled as `Int`.  A Solidity `require` failure and an
Express early `return next(new ErrorResponse ...)` are both modelled as
`Except.error e`: in both sources the error path performs no state mutation,
so an error result leaves the state unchanged by construction.
-/

namespace TransparenCity

/-- Pointwise update of a Solidity `mapping` modelled as a total function. -/
def mapUpdate {α : Type} (m : Nat → α) (k : Nat) (v : α) : Nat → α :=
  fun k' => if k' = k then v else m k'

theorem mapUpdate_same {α : Type} (m : Nat → α) (k : Nat) (v : α) :
    mapUpdate m k v k = v := by
  simp [mapUpdate]

theorem mapUpdate_other {α : Type} (m : Nat → α) (k k' : Nat) (v : α)
    (h : k' ≠ k) : mapUpdate m k v k' = m k' := by
  simp [mapUpdate, h]

/-! ## Governance contract (`TransparenCityGovernance`) -/

/-- `enum ProposalStatus { Active, Passed, Rejected, Implemented }`. -/
inductive ProposalStatus
  | Active
  | Passed
  | Rejected
  | Implemented
deriving DecidableEq, Repr

/-- The `Proposal` struct of the governance contract.  The
`mapping(address => bool) hasVoted` member is a total function over
addresses, `false` by default, exactly like a Solidity mapping. -/
structure GProposal where
  id : Nat
  title : String
  description : String
  ipfsDocHash : String
  creationTime : Nat
  votingEndTime : Nat
  proposer : Nat
  yesVotes : Nat
  noVotes : Nat
  status : ProposalStatus
  implementationDetails : String
  hasVoted : Nat → Bool

/-- Default value of the `Proposal` struct: what `proposals[k]` holds for a
key that was never written (all members zero-initialised; the default of the
status enum is its first member, `Active`). -/
def defaultGProposal : GProposal :=
  { id := 0, title := "", description := "", ipfsDocHash := "",
    creationTime := 0, votingEndTime := 0, proposer := 0,
    yesVotes := 0, noVotes := 0, status := .Active,
    implementationDetails := "", hasVoted := fun _ => false }

/-- The `AuditRecord` struct of the governance contract. -/
structure GAuditRecord where
  user : Nat
  proposalId : Nat
  action : String
  timestamp : Nat
deriving DecidableEq, Repr

/-- Full storage of the governance contract. -/
structure GovState where
  admin : Nat
  proposalCount : Nat
  proposals : Nat → GProposal
  verifiedVoters : Nat → Bool
  auditTrail : List GAuditRecord

/-- `VOTING_PERIOD = 7 days` (in seconds, like `block.timestamp`). -/
def VOTING_PERIOD : Nat := 7 * 24 * 60 * 60

/-- `require` failures of the governance contract, one per distinct
`require` message. -/
inductive GovError
  | notAdmin          -- "Only admin can perform this action"
  | notVerified       -- "Only verified voters can perform this action"
  | invalidProposal   -- "Invalid proposal ID"
  | votingEnded       -- "Voting period has ended"
  | notActive         -- "Proposal is not active"
  | alreadyVoted      -- "Already voted on this proposal"
deriving DecidableEq, Repr

/-- The address the contract uses as actor for automatic status updates
(`address(this)`); any fixed address distinct from externally owned
accounts used in examples works for the model. -/
def contractAddress : Nat := 1000000

/-- `recordAudit` (internal): push one record onto `auditTrail`. -/
def recordAudit (s : GovState) (user proposalId : Nat) (action : String)
    (now : Nat) : GovState :=
  { s with auditTrail :=
      s.auditTrail ++ [{ user := user, proposalId := proposalId,
                         action := action, timestamp := now }] }

/-- `verifyVoter` (admin only). -/
def verifyVoter (s : GovState) (sender voter : Nat) (now : Nat) :
    Except GovError GovState :=
  if sender ≠ s.admin then .error .notAdmin
  else
    let s1 := { s with verifiedVoters := fun a => if a = voter then true else s.verifiedVoters a }
    .ok (recordAudit s1 voter 0 "VOTER_VERIFIED" now)

/-- `updateProposalStatus` (admin only): sets the status unconditionally;
stores the implementation details only when the new status is
`Implemented`; appends a `"STATUS_UPDATED"` audit record. -/
def updateProposalStatus (s : GovState) (sender proposalId : Nat)
    (newStatus : ProposalStatus) (implementationDetails : String)
    (now : Nat) : Except GovError GovState :=
  if sender ≠ s.admin then .error .notAdmin
  else if ¬ (proposalId ≤ s.proposalCount ∧ proposalId > 0) then
    .error .invalidProposal
  else
    let p := s.proposals proposalId
    let p' := { p with
                status := newStatus,
                implementationDetails :=
                  if newStatus = .Implemented then implementationDetails
                  else p.implementationDetails }
    let s1 := { s with proposals := mapUpdate s.proposals proposalId p' }
    .ok (recordAudit s1 sender proposalId "STATUS_UPDATED" now)

/-- `createProposal` (verified voters only): allocates id
`proposalCount + 1`, status `Active`, voting ends `VOTING_PERIOD` later. -/
def createProposal (s : GovState) (sender : Nat)
    (title description ipfsDocHash : String) (now : Nat) :
    Except GovError GovState :=
  if ¬ s.verifiedVoters sender then .error .notVerified
  else
    let newId := s.proposalCount + 1
    let p : GProposal :=
      { id := newId, title := title, description := description,
        ipfsDocHash := ipfsDocHash, creationTime := now,
        votingEndTime := now + VOTING_PERIOD, proposer := sender,
        yesVotes := 0, noVotes := 0, status := .Active,
        implementationDetails := "", hasVoted := fun _ => false }
    let s1 := { s with
                proposalCount := newId,
                proposals := mapUpdate s.proposals newId p }
    .ok (recordAudit s1 sender newId "PROPOSAL_CREATED" now)

/-- `checkProposalStatus` (public): if the proposal is `Active` and the
voting period is over, close it (`Passed` iff strictly more yes than no
votes, otherwise `Rejected`) and append a `"STATUS_UPDATED_AUTO"` audit
record; otherwise do nothing. -/
def checkProposalStatus (s : GovState) (proposalId now : Nat) : GovState :=
  let p := s.proposals proposalId
  if p.status = .Active ∧ p.votingEndTime ≤ now then
    let newStatus : ProposalStatus :=
      if p.noVotes < p.yesVotes then .Passed else .Rejected
    let p' := { p with status := newStatus }
    let s1 := { s with proposals := mapUpdate s.proposals proposalId p' }
    recordAudit s1 contractAddress proposalId "STATUS_UPDATED_AUTO" now
  else s

/-- The mutation `castVote` performs on the voted proposal: mark the sender
as having voted and bump the yes or no tally. -/
def voteTallied (p : GProposal) (sender : Nat) (support : Bool) : GProposal :=
  { p with
    hasVoted := fun a => if a = sender then true else p.hasVoted a,
    yesVotes := if support then p.yesVotes + 1 else p.yesVotes,
    noVotes := if support then p.noVotes else p.noVotes + 1 }

/-- The state `castVote` reaches just before its final
`checkProposalStatus` call: tallies bumped and the vote audit record
appended. -/
def castVoteApplied (s : GovState) (sender proposalId : Nat) (support : Bool)
    (now : Nat) : GovState :=
  recordAudit
    { s with proposals := mapUpdate s.proposals proposalId (voteTallied (s.proposals proposalId) sender support) }
    sender proposalId (if support then "VOTE_YES" else "VOTE_NO") now

/-- `castVote` (verified voters only): requires a valid id, an open voting
period, `Active` status and no previous vote by the sender; then marks the
sender as having voted, bumps the yes or no tally, appends a vote audit
record and finally calls `checkProposalStatus`. -/
def castVote (s : GovState) (sender proposalId : Nat) (support : Bool)
    (now : Nat) : Except GovError GovState :=
  if ¬ s.verifiedVoters sender then .error .notVerified
  else if ¬ (proposalId ≤ s.proposalCount ∧ proposalId > 0) then
    .error .invalidProposal
  else if ¬ (now < (s.proposals proposalId).votingEndTime) then
    .error .votingEnded
  else if (s.proposals proposalId).status ≠ .Active then .error .notActive
  else if (s.proposals proposalId).hasVoted sender then .error .alreadyVoted
  else
    .ok (checkProposalStatus (castVoteApplied s sender proposalId support now)
          proposalId now)

end TransparenCity

namespace TransparenCity

/-! ## Status monotonicity of the non-admin governance operations -/

/-- One allowed status evolution step for the operations that are not the
admin override: either the status is unchanged, or an `Active` proposal is
closed to `Passed` or `Rejected`. -/
def statusStep (old new : ProposalStatus) : Prop :=
  new = old ∨ (old = .Active ∧ (new = .Passed ∨ new = .Rejected))

/-- One successful application of a governance operation other than the
admin-only `updateProposalStatus`. -/
inductive NonAdminStep : GovState → GovState → Prop
  | create (s : GovState) (sender : Nat) (title description ipfsDocHash : String)
      (now : Nat) (s' : GovState) :
      createProposal s sender title description ipfsDocHash now = .ok s' →
      NonAdminStep s s'
  | vote (s : GovState) (sender proposalId : Nat) (support : Bool) (now : Nat)
      (s' : GovState) :
      castVote s sender proposalId support now = .ok s' →
      NonAdminStep s s'
  | check (s : GovState) (proposalId now : Nat) :
      NonAdminStep s (checkProposalStatus s proposalId now)
  | verify (s : GovState) (sender voter : Nat) (now : Nat) (s' : GovState) :
      verifyVoter s sender voter now = .ok s' →
      NonAdminStep s s'

theorem checkProposalStatus_statusStep (s : GovState) (proposalId now pid : Nat) :
    statusStep (s.proposals pid).status
      ((checkProposalStatus s proposalId now).proposals pid).status := by
  unfold checkProposalStatus statusStep
  by_cases h : (s.proposals proposalId).status = .Active ∧
      (s.proposals proposalId).votingEndTime ≤ now
  · rw [if_pos h]
    by_cases hp : pid = proposalId
    · subst hp
      right
      refine ⟨h.1, ?_⟩
      by_cases hv : (s.proposals pid).noVotes < (s.proposals pid).yesVotes
      · left; simp [recordAudit, mapUpdate, hv]
      · right; simp [recordAudit, mapUpdate, hv]
    · left; simp [recordAudit, mapUpdate, hp]
  · rw [if_neg h]
    left; rfl

/-- Transport `checkProposalStatus_statusStep` along a state whose proposal
statuses agree with `s`. -/
theorem statusStep_check_of_status_eq (s t : GovState) (proposalId now pid : Nat)
    (hst : (t.proposals pid).status = (s.proposals pid).status) :
    statusStep (s.proposals pid).status
      ((checkProposalStatus t proposalId now).proposals pid).status := by
  have h := checkProposalStatus_statusStep t proposalId now pid
  rwa [hst] at h

theorem castVote_statusStep (s : GovState) (sender proposalId : Nat)
    (support : Bool) (now : Nat) (s' : GovState)
    (h : castVote s sender proposalId support now = .ok s') (pid : Nat) :
    statusStep (s.proposals pid).status ((s'.proposals pid).status) := by
  unfold castVote at h
  split at h
  · exact Except.noConfusion h
  split at h
  · exact Except.noConfusion h
  split at h
  · exact Except.noConfusion h
  split at h
  · exact Except.noConfusion h
  split at h
  · exact Except.noConfusion h
  · injection h with h
    subst h
    apply statusStep_check_of_status_eq
    by_cases hq : pid = proposalId
    · subst hq; simp [castVoteApplied, voteTallied, recordAudit, mapUpdate]
    · simp [castVoteApplied, recordAudit, mapUpdate, hq]

theorem createProposal_statusStep (s : GovState) (sender : Nat)
    (title description ipfsDocHash : String) (now : Nat) (s' : GovState)
    (h : createProposal s sender title description ipfsDocHash now = .ok s')
    (pid : Nat) (hpid : pid ≤ s.proposalCount) :
    statusStep (s.proposals pid).status ((s'.proposals pid).status) := by
  unfold createProposal at h
  split at h
  · exact Except.noConfusion h
  · injection h with h
    subst h
    have hq : pid ≠ s.proposalCount + 1 := by omega
    left
    simp [recordAudit, mapUpdate, hq]

theorem verifyVoter_statusStep (s : GovState) (sender voter : Nat) (now : Nat)
    (s' : GovState) (h : verifyVoter s sender voter now = .ok s') (pid : Nat) :
    statusStep (s.proposals pid).status ((s'.proposals pid).status) := by
  unfold verifyVoter at h
  split at h
  · exact Except.noConfusion h
  · injection h with h
    subst h
    left
    simp [recordAudit]

/-- `checkProposalStatus` never changes the tallies of any proposal. -/
theorem checkProposalStatus_preserves_votes (s : GovState) (proposalId now pid : Nat) :
    ((checkProposalStatus s proposalId now).proposals pid).yesVotes =
      (s.proposals pid).yesVotes ∧
    ((checkProposalStatus s proposalId now).proposals pid).noVotes =
      (s.proposals pid).noVotes := by
  unfold checkProposalStatus
  by_cases h : (s.proposals proposalId).status = .Active ∧
      (s.proposals proposalId).votingEndTime ≤ now
  · rw [if_pos h]
    by_cases hp : pid = proposalId
    · subst hp; constructor <;> simp [recordAudit, mapUpdate]
    · constructor <;> simp [recordAudit, mapUpdate, hp]
  · rw [if_neg h]; exact ⟨rfl, rfl⟩

/-! ## Concrete governance states used as witnesses/counterexamples -/

/-- A governance state holding one proposal that has already been
`Rejected`. -/
def govRejectedState : GovState :=
  { admin := 1, proposalCount := 1,
    proposals := mapUpdate (fun _ => defaultGProposal) 1
      ({ defaultGProposal with id := 1, status := .Rejected }),
    verifiedVoters := fun _ => false,
    auditTrail := [] }

/-- A governance state holding one `Active` proposal whose voting period
ends at time 100, with address 5 a verified voter. -/
def govOpenState : GovState :=
  { admin := 1, proposalCount := 1,
    proposals := mapUpdate (fun _ => defaultGProposal) 1
      ({ defaultGProposal with id := 1, votingEndTime := 100 }),
    verifiedVoters := fun a => a == 5,
    auditTrail := [] }

/-! ## Claim C1 -/

/-- **C1, counterexample.**  The claim says no operation — explicitly
including `updateProposalStatus` — ever moves a proposal from `Rejected`
back to `Active`.  The admin override `updateProposalStatus` does exactly
that: on a state whose proposal 1 is `Rejected`, the admin (address 1) can
set the status back to `Active`. -/
theorem claim_C1_counterexample :
    (govRejectedState.proposals 1).status = ProposalStatus.Rejected ∧
    (updateProposalStatus govRejectedState 1 1 ProposalStatus.Active "" 0).toOption.map
        (fun s => (s.proposals 1).status) = some ProposalStatus.Active := by
  constructor
  · rfl
  · rfl

/-- **C1, amended.**  Along every operation of the governance contract other
than the admin-only `updateProposalStatus` — i.e. `createProposal`,
`castVote`, `checkProposalStatus` and `verifyVoter` — the status of every
existing proposal either stays unchanged or moves from `Active` to
`Passed`/`Rejected`; in particular none of these operations ever moves a
proposal from `Rejected` (or any later state) back to `Active`. -/
theorem claim_C1_status_monotonic (s s' : GovState) (hstep : NonAdminStep s s')
    (pid : Nat) (hpid : pid ≤ s.proposalCount) :
    statusStep (s.proposals pid).status ((s'.proposals pid).status) := by
  cases hstep with
  | create sender title description ipfsDocHash now t h =>
      exact createProposal_statusStep _ _ _ _ _ _ _ h pid hpid
  | vote sender proposalId support now t h =>
      exact castVote_statusStep _ _ _ _ _ _ h pid
  | check proposalId now =>
      exact checkProposalStatus_statusStep _ proposalId now pid
  | verify sender voter now t h =>
      exact verifyVoter_statusStep _ _ _ _ _ h pid

/-- Witness for C1 (amended): the automatic close of the already-rejected
proposal 1 is a `statusStep`. -/
theorem claim_C1_witness :
    statusStep (govRejectedState.proposals 1).status
      (((checkProposalStatus govRejectedState 1 99).proposals 1).status) :=
  claim_C1_status_monotonic govRejectedState _
    (NonAdminStep.check govRejectedState 1 99) 1 (by decide)

/-! ## Claim C4 -/

/-- **C4.**  `checkProposalStatus` is a no-op unless the proposal is
`Active` and its voting deadline has passed; in that case it sets the
status to `Passed` when `yesVotes > noVotes` and to `Rejected` otherwise
(ties favour `Rejected`), and appends exactly one audit record with action
`"STATUS_UPDATED_AUTO"`. -/
theorem claim_C4_checkProposalStatus (s : GovState) (proposalId now : Nat) :
    if (s.proposals proposalId).status = ProposalStatus.Active ∧
        (s.proposals proposalId).votingEndTime ≤ now then
      (((checkProposalStatus s proposalId now).proposals proposalId).status =
        if (s.proposals proposalId).noVotes < (s.proposals proposalId).yesVotes
        then ProposalStatus.Passed else ProposalStatus.Rejected) ∧
      (checkProposalStatus s proposalId now).auditTrail =
        s.auditTrail ++ [{ user := contractAddress, proposalId := proposalId,
                           action := "STATUS_UPDATED_AUTO", timestamp := now }]
    else checkProposalStatus s proposalId now = s := by
  by_cases h : (s.proposals proposalId).status = ProposalStatus.Active ∧
      (s.proposals proposalId).votingEndTime ≤ now
  · rw [if_pos h]
    unfold checkProposalStatus
    rw [if_pos h]
    constructor
    · simp [recordAudit, mapUpdate]
    · simp [recordAudit, mapUpdate]
  · rw [if_neg h]
    unfold checkProposalStatus
    rw [if_neg h]

/-! ## Claim C5 -/

/-- **C5.**  For a verified voter and an existing proposal: `castVote`
fails with a voting-closed error (`votingEnded` or `notActive`) whenever
the proposal's status is not `Active` or the voting deadline has passed;
on success it increments the chosen tally bucket by one and the final
state is `checkProposalStatus` applied to the tallied state. -/
theorem claim_C5_castVote (s : GovState) (sender proposalId : Nat)
    (support : Bool) (now : Nat)
    (hverified : s.verifiedVoters sender = true)
    (hid : 0 < proposalId ∧ proposalId ≤ s.proposalCount) :
    ((s.proposals proposalId).votingEndTime ≤ now ∨
        (s.proposals proposalId).status ≠ ProposalStatus.Active →
      ∃ e, castVote s sender proposalId support now = .error e ∧
        (e = GovError.votingEnded ∨ e = GovError.notActive)) ∧
    (∀ s', castVote s sender proposalId support now = .ok s' →
      ((s'.proposals proposalId).yesVotes =
        (s.proposals proposalId).yesVotes + (if support then 1 else 0)) ∧
      ((s'.proposals proposalId).noVotes =
        (s.proposals proposalId).noVotes + (if support then 0 else 1)) ∧
      s' = checkProposalStatus (castVoteApplied s sender proposalId support now)
            proposalId now) := by
  have h1 : ¬ ¬ s.verifiedVoters sender = true := by simp [hverified]
  have h2 : ¬ ¬ (proposalId ≤ s.proposalCount ∧ proposalId > 0) := by
    simp only [not_not]
    exact ⟨hid.2, hid.1⟩
  constructor
  · intro hclosed
    unfold castVote
    rw [if_neg h1, if_neg h2]
    by_cases h3 : ¬ now < (s.proposals proposalId).votingEndTime
    · rw [if_pos h3]
      exact ⟨GovError.votingEnded, rfl, Or.inl rfl⟩
    · rw [if_neg h3]
      have h4 : (s.proposals proposalId).status ≠ ProposalStatus.Active := by
        rcases hclosed with hc | hc
        · exact absurd hc (by omega)
        · exact hc
      rw [if_pos h4]
      exact ⟨GovError.notActive, rfl, Or.inr rfl⟩
  · intro s' h
    unfold castVote at h
    rw [if_neg h1, if_neg h2] at h
    split at h
    · exact Except.noConfusion h
    split at h
    · exact Except.noConfusion h
    split at h
    · exact Except.noConfusion h
    injection h with h
    subst h
    have hv := checkProposalStatus_preserves_votes
      (castVoteApplied s sender proposalId support now) proposalId now proposalId
    refine ⟨?_, ?_, rfl⟩
    · rw [hv.1]
      cases support <;>
        simp [castVoteApplied, voteTallied, recordAudit, mapUpdate]
    · rw [hv.2]
      cases support <;>
        simp [castVoteApplied, voteTallied, recordAudit, mapUpdate]

/-- Witness for C5: on the concrete open state, voting at time 200 (after
the deadline 100) fails with a voting-closed error. -/
theorem claim_C5_witness :
    ∃ e, castVote govOpenState 5 1 true 200 = .error e ∧
      (e = GovError.votingEnded ∨ e = GovError.notActive) :=
  (claim_C5_castVote govOpenState 5 1 true 200 (by decide) (by decide)).1
    (Or.inl (by decide))

/-! ## Audit-trail contract (`TransparentAuditTrail`) -/

/-- The `AuditRecord` struct of `TransparentAuditTrail` (`bytes32` payloads
modelled as strings). -/
structure TAuditRecord where
  id : Nat
  timestamp : Nat
  actor : Nat
  actionType : String
  proposalId : Nat
  ipfsDataHash : String
  metadataHash : String
deriving DecidableEq, Repr

def defaultTAuditRecord : TAuditRecord :=
  { id := 0, timestamp := 0, actor := 0, actionType := "",
    proposalId := 0, ipfsDataHash := "", metadataHash := "" }

/-- Full storage of the audit-trail contract. -/
structure TrailState where
  admin : Nat
  governanceContract : Nat
  auditRecords : List TAuditRecord
  proposalAuditRecords : Nat → List Nat
  userAuditRecords : Nat → List Nat

/-- `require` failures of the audit-trail contract. -/
inductive TrailError
  | notAdmin          -- "Only admin can perform this action"
  | notGovernance     -- "Only governance contract can call"
  | invalidAddress    -- "Invalid address"
  | invalidRecord     -- "Invalid record ID"
  | startOutOfBounds  -- "Start index out of bounds"
deriving DecidableEq, Repr

/-- Constructor: deployer becomes admin; every mapping is empty and the
governance contract address is the zero address. -/
def initTrail (deployer : Nat) : TrailState :=
  { admin := deployer, governanceContract := 0, auditRecords := [],
    proposalAuditRecords := fun _ => [], userAuditRecords := fun _ => [] }

/-- `setGovernanceContract` (admin only, non-zero address). -/
def setGovernanceContract (s : TrailState) (sender gov : Nat) :
    Except TrailError TrailState :=
  if sender ≠ s.admin then .error .notAdmin
  else if gov = 0 then .error .invalidAddress
  else .ok { s with governanceContract := gov }

/-- `recordAudit` of `TransparentAuditTrail` (governance contract only):
assigns `recordId = auditRecords.length`, pushes the record, indexes it
under the proposal (only when `proposalId > 0`) and under the actor, and
returns the record id. -/
def trailRecordAudit (s : TrailState) (sender actor : Nat)
    (actionType : String) (proposalId : Nat) (ipfsDataHash metadataHash : String)
    (now : Nat) : Except TrailError (TrailState × Nat) :=
  if sender ≠ s.governanceContract then .error .notGovernance
  else
    .ok ({ s with
      auditRecords := s.auditRecords ++
        [{ id := s.auditRecords.length, timestamp := now, actor := actor,
           actionType := actionType, proposalId := proposalId,
           ipfsDataHash := ipfsDataHash, metadataHash := metadataHash }],
      proposalAuditRecords :=
        if proposalId > 0 then
          mapUpdate s.proposalAuditRecords proposalId
            (s.proposalAuditRecords proposalId ++ [s.auditRecords.length])
        else s.proposalAuditRecords,
      userAuditRecords :=
        mapUpdate s.userAuditRecords actor
          (s.userAuditRecords actor ++ [s.auditRecords.length]) },
     s.auditRecords.length)

/-- `getProposalAudits`: pure lookup of the per-proposal index. -/
def getProposalAudits (s : TrailState) (proposalId : Nat) : List Nat :=
  s.proposalAuditRecords proposalId

/-- The per-record view returned by `getAuditBatch`
(id, timestamp, actor, actionType, proposalId). -/
def trailView (r : TAuditRecord) : Nat × Nat × Nat × String × Nat :=
  (r.id, r.timestamp, r.actor, r.actionType, r.proposalId)

/-- `getAuditBatch`: requires `startIndex < auditRecords.length`; clamps
`count` so that `startIndex + count` does not exceed the length, then reads
`auditRecords[startIndex + i]` for `i < count`. -/
def getAuditBatch (s : TrailState) (startIndex count : Nat) :
    Except TrailError (List (Nat × Nat × Nat × String × Nat)) :=
  if startIndex < s.auditRecords.length then
    .ok ((List.range
        (if s.auditRecords.length < startIndex + count
         then s.auditRecords.length - startIndex else count)).map
      (fun i => trailView (s.auditRecords.getD (startIndex + i) defaultTAuditRecord)))
  else .error .startOutOfBounds

/-- One successful state-mutating call of the audit-trail contract. -/
inductive TrailStep : TrailState → TrailState → Prop
  | setGov (s : TrailState) (sender gov : Nat) (s' : TrailState) :
      setGovernanceContract s sender gov = .ok s' → TrailStep s s'
  | record (s : TrailState) (sender actor : Nat) (actionType : String)
      (proposalId : Nat) (ipfsDataHash metadataHash : String) (now : Nat)
      (s' : TrailState) (rid : Nat) :
      trailRecordAudit s sender actor actionType proposalId ipfsDataHash
        metadataHash now = .ok (s', rid) →
      TrailStep s s'

/-- States of the audit-trail contract reachable from deployment. -/
inductive TrailReachable : TrailState → Prop
  | init (deployer : Nat) : TrailReachable (initTrail deployer)
  | step (s s' : TrailState) : TrailReachable s → TrailStep s s' →
      TrailReachable s'

/-- What a successful `setGovernanceContract` call does to the state. -/
theorem setGovernanceContract_ok (s : TrailState) (sender gov : Nat)
    (s' : TrailState) (h : setGovernanceContract s sender gov = .ok s') :
    s' = { s with governanceContract := gov } := by
  unfold setGovernanceContract at h
  split at h
  · exact Except.noConfusion h
  split at h
  · exact Except.noConfusion h
  · injection h with h
    exact h.symm

/-- The record pushed by `trailRecordAudit` on a state `s`. -/
def trailNewRecord (s : TrailState) (actor : Nat) (actionType : String)
    (proposalId : Nat) (ipfsDataHash metadataHash : String) (now : Nat) :
    TAuditRecord :=
  { id := s.auditRecords.length, timestamp := now, actor := actor,
    actionType := actionType, proposalId := proposalId,
    ipfsDataHash := ipfsDataHash, metadataHash := metadataHash }

/-- What a successful `trailRecordAudit` call does to the state: the
returned id is the previous length, the record is appended, and the two
indices receive the new id (the per-proposal one only when
`proposalId > 0`). -/
theorem trailRecordAudit_ok (s : TrailState) (sender actor : Nat)
    (actionType : String) (proposalId : Nat) (ipfsDataHash metadataHash : String)
    (now : Nat) (s' : TrailState) (rid : Nat)
    (h : trailRecordAudit s sender actor actionType proposalId ipfsDataHash
          metadataHash now = .ok (s', rid)) :
    rid = s.auditRecords.length ∧
    s'.auditRecords = s.auditRecords ++
      [trailNewRecord s actor actionType proposalId ipfsDataHash metadataHash now] ∧
    s'.proposalAuditRecords =
      (if proposalId > 0 then
        mapUpdate s.proposalAuditRecords proposalId
          (s.proposalAuditRecords proposalId ++ [s.auditRecords.length])
      else s.proposalAuditRecords) ∧
    s'.userAuditRecords =
      mapUpdate s.userAuditRecords actor
        (s.userAuditRecords actor ++ [s.auditRecords.length]) := by
  unfold trailRecordAudit at h
  split at h
  · exact Except.noConfusion h
  · injection h with h
    injection h with hstate hrid
    subst hstate
    subst hrid
    exact ⟨rfl, rfl, rfl, rfl⟩

theorem trailStep_records_extend (s s' : TrailState) (h : TrailStep s s') :
    s.auditRecords <+: s'.auditRecords := by
  cases h with
  | setGov sender gov t h =>
      rw [setGovernanceContract_ok s sender gov _ h]
  | record sender actor actionType proposalId ipfs meta now t rid h =>
      rw [(trailRecordAudit_ok s sender actor actionType proposalId ipfs meta
            now _ rid h).2.1]
      exact ⟨_, rfl⟩

theorem trailReachable_ids (s : TrailState) (h : TrailReachable s) :
    ∀ i, i < s.auditRecords.length →
      (s.auditRecords.getD i defaultTAuditRecord).id = i := by
  induction h with
  | init d =>
      intro i hi
      simp [initTrail] at hi
  | step s t hr hstep ih =>
      cases hstep with
      | setGov sender gov u h =>
          rw [setGovernanceContract_ok s sender gov _ h]
          exact ih
      | record sender actor actionType proposalId ipfs meta now u rid h =>
          rw [(trailRecordAudit_ok s sender actor actionType proposalId ipfs
                meta now _ rid h).2.1]
          intro i hi
          simp only [List.length_append, List.length_singleton] at hi
          by_cases hlt : i < s.auditRecords.length
          · rw [List.getD_eq_getElem?_getD, List.getElem?_append_left hlt,
              ← List.getD_eq_getElem?_getD]
            exact ih i hlt
          · have hieq : i = s.auditRecords.length := by omega
            subst hieq
            rw [List.getD_eq_getElem?_getD,
              List.getElem?_append_right (Nat.le_refl _)]
            simp [trailNewRecord]

theorem trailReachable_prop0 (s : TrailState) (h : TrailReachable s) :
    s.proposalAuditRecords 0 = [] := by
  induction h with
  | init d => rfl
  | step s t hr hstep ih =>
      cases hstep with
      | setGov sender gov u h =>
          rw [setGovernanceContract_ok s sender gov _ h]
          exact ih
      | record sender actor actionType proposalId ipfs meta now u rid h =>
          rw [(trailRecordAudit_ok s sender actor actionType proposalId ipfs
                meta now _ rid h).2.2.1]
          by_cases hp : proposalId > 0
          · rw [if_pos hp, mapUpdate_other _ _ _ _ (by omega)]
            exact ih
          · rw [if_neg hp]
            exact ih

/-! ## Concrete audit-trail states -/

def trailS0 : TrailState := initTrail 1

/-- `trailS0` after the admin sets the governance contract to address 7. -/
def trailS1 : TrailState := { trailS0 with governanceContract := 7 }

def trailRecord0 : TAuditRecord :=
  { id := 0, timestamp := 10, actor := 5, actionType := "VOTE",
    proposalId := 1, ipfsDataHash := "", metadataHash := "" }

/-- `trailS1` after the governance contract records one audit for
proposal 1 by actor 5. -/
def trailS2 : TrailState :=
  { admin := 1, governanceContract := 7, auditRecords := [trailRecord0],
    proposalAuditRecords := mapUpdate (fun _ => []) 1 [0],
    userAuditRecords := mapUpdate (fun _ => []) 5 [0] }

def trailRecordZero : TAuditRecord :=
  { id := 0, timestamp := 10, actor := 5, actionType := "VOTER_VERIFIED",
    proposalId := 0, ipfsDataHash := "", metadataHash := "" }

/-- `trailS1` after the governance contract records one audit with
`proposalId = 0` (a non-proposal action) by actor 5. -/
def trailS2zero : TrailState :=
  { admin := 1, governanceContract := 7, auditRecords := [trailRecordZero],
    proposalAuditRecords := fun _ => [],
    userAuditRecords := mapUpdate (fun _ => []) 5 [0] }

theorem trailS1_reachable : TrailReachable trailS1 :=
  TrailReachable.step trailS0 trailS1 (TrailReachable.init 1)
    (TrailStep.setGov trailS0 1 7 trailS1 rfl)

theorem trailS2_reachable : TrailReachable trailS2 :=
  TrailReachable.step trailS1 trailS2 trailS1_reachable
    (TrailStep.record trailS1 7 5 "VOTE" 1 "" "" 10 trailS2 0 rfl)

theorem trailS2zero_reachable : TrailReachable trailS2zero :=
  TrailReachable.step trailS1 trailS2zero trailS1_reachable
    (TrailStep.record trailS1 7 5 "VOTER_VERIFIED" 0 "" "" 10 trailS2zero 0 rfl)

/-! ## Claim C6 -/

/-- **C6.**  In the audit-trail contract: (a) every successful append
assigns the new record the id `auditRecords.length` measured before the
append and appends exactly that one record; (b) in every reachable state
the record stored at position `i` has id `i`, so ids are strictly
increasing along the list; (c) no state-mutating operation ever mutates or
removes an existing record — the old record list is a prefix of the new
one. -/
theorem claim_C6_audit_log_append_only :
    (∀ s sender actor actionType proposalId ipfsDataHash metadataHash now s' rid,
      trailRecordAudit s sender actor actionType proposalId ipfsDataHash
        metadataHash now = .ok (s', rid) →
      rid = s.auditRecords.length ∧
      s'.auditRecords = s.auditRecords ++
        [trailNewRecord s actor actionType proposalId ipfsDataHash metadataHash now]) ∧
    (∀ s, TrailReachable s → ∀ i, i < s.auditRecords.length →
      (s.auditRecords.getD i defaultTAuditRecord).id = i) ∧
    (∀ s s', TrailStep s s' → s.auditRecords <+: s'.auditRecords) := by
  refine ⟨?_, trailReachable_ids, trailStep_records_extend⟩
  intro s sender actor actionType proposalId ipfs meta now s' rid h
  have hh := trailRecordAudit_ok s sender actor actionType proposalId ipfs
    meta now s' rid h
  exact ⟨hh.1, hh.2.1⟩

/-- Witness for C6: one concrete append from `trailS1` to `trailS2`
satisfies all three parts. -/
theorem claim_C6_witness :
    (0 = trailS1.auditRecords.length ∧
      trailS2.auditRecords = trailS1.auditRecords ++
        [trailNewRecord trailS1 5 "VOTE" 1 "" "" 10]) ∧
    (trailS2.auditRecords.getD 0 defaultTAuditRecord).id = 0 ∧
    trailS1.auditRecords <+: trailS2.auditRecords :=
  ⟨claim_C6_audit_log_append_only.1 trailS1 7 5 "VOTE" 1 "" "" 10 trailS2 0 rfl,
   claim_C6_audit_log_append_only.2.1 trailS2 trailS2_reachable 0 (by decide),
   claim_C6_audit_log_append_only.2.2 trailS1 trailS2
     (TrailStep.record trailS1 7 5 "VOTE" 1 "" "" 10 trailS2 0 rfl)⟩

/-! ## Claim C9 -/

/-- **C9.**  Recording an audit with `proposalId = 0` appends the record to
the global list and to the per-actor index, but leaves the whole
per-proposal index untouched; consequently `getProposalAudits 0` is empty
in every reachable state. -/
theorem claim_C9_proposal_zero_not_indexed :
    (∀ s sender actor actionType ipfsDataHash metadataHash now s' rid,
      trailRecordAudit s sender actor actionType 0 ipfsDataHash metadataHash
        now = .ok (s', rid) →
      s'.auditRecords = s.auditRecords ++
        [trailNewRecord s actor actionType 0 ipfsDataHash metadataHash now] ∧
      s'.userAuditRecords actor =
        s.userAuditRecords actor ++ [s.auditRecords.length] ∧
      s'.proposalAuditRecords = s.proposalAuditRecords) ∧
    (∀ s, TrailReachable s → getProposalAudits s 0 = []) := by
  constructor
  · intro s sender actor actionType ipfs meta now s' rid h
    obtain ⟨h1, h2, h3, h4⟩ :=
      trailRecordAudit_ok s sender actor actionType 0 ipfs meta now s' rid h
    refine ⟨h2, ?_, ?_⟩
    · rw [h4, mapUpdate_same]
    · rw [h3, if_neg (by omega)]
  · exact trailReachable_prop0

/-- Witness for C9: the concrete `proposalId = 0` append from `trailS1`
to `trailS2zero`, and emptiness of `getProposalAudits 0` there. -/
theorem claim_C9_witness :
    (trailS2zero.auditRecords = trailS1.auditRecords ++
        [trailNewRecord trailS1 5 "VOTER_VERIFIED" 0 "" "" 10] ∧
      trailS2zero.userAuditRecords 5 =
        trailS1.userAuditRecords 5 ++ [trailS1.auditRecords.length] ∧
      trailS2zero.proposalAuditRecords = trailS1.proposalAuditRecords) ∧
    getProposalAudits trailS2zero 0 = [] :=
  ⟨claim_C9_proposal_zero_not_indexed.1 trailS1 7 5 "VOTER_VERIFIED" "" "" 10
      trailS2zero 0 rfl,
   claim_C9_proposal_zero_not_indexed.2 trailS2zero trailS2zero_reachable⟩

/-! ## Claim C8 -/

/-- **C8, counterexample.**  The claim quantifies over every start index,
but `getAuditBatch` requires `startIndex < auditRecords.length`: on a state
with exactly one record, `getAuditBatch 1 3` reverts with
"Start index out of bounds" and returns no batch at all, where the claim
requires a batch of `min 3 (1 - 1) = 0` records. -/
theorem claim_C8_counterexample :
    getAuditBatch trailS2 1 3 = .error TrailError.startOutOfBounds ∧
    (getAuditBatch trailS2 1 3).toOption = none ∧
    min 3 (trailS2.auditRecords.length - 1) = 0 :=
  ⟨rfl, rfl, rfl⟩

/-- **C8, amended.**  For every start index that is in bounds
(`startIndex < auditRecords.length`), `getAuditBatch` returns exactly
`min count (length - startIndex)` records, read in stored order starting at
`startIndex`; for an out-of-bounds start index it reverts instead. -/
theorem claim_C8_getAuditBatch (s : TrailState) (startIndex count : Nat)
    (hstart : startIndex < s.auditRecords.length) :
    ∃ l, getAuditBatch s startIndex count = .ok l ∧
      l.length = min count (s.auditRecords.length - startIndex) ∧
      ∀ i, i < l.length →
        l.getD i (trailView defaultTAuditRecord) =
          trailView (s.auditRecords.getD (startIndex + i) defaultTAuditRecord) := by
  have hcount : (if s.auditRecords.length < startIndex + count
      then s.auditRecords.length - startIndex else count) =
      min count (s.auditRecords.length - startIndex) := by
    split <;> omega
  refine ⟨(List.range (if s.auditRecords.length < startIndex + count
      then s.auditRecords.length - startIndex else count)).map
        (fun i => trailView (s.auditRecords.getD (startIndex + i) defaultTAuditRecord)),
    ?_, ?_, ?_⟩
  · unfold getAuditBatch
    rw [if_pos hstart]
  · simp [hcount]
  · intro i hi
    simp only [List.length_map, List.length_range] at hi
    rw [List.getD_eq_getElem?_getD, List.getElem?_map, List.getElem?_range hi]
    rfl

/-- Witness for C8 (amended): reading from index 0 on the one-record state
returns exactly one record. -/
theorem claim_C8_witness :
    ∃ l, getAuditBatch trailS2 0 5 = .ok l ∧
      l.length = min 5 (trailS2.auditRecords.length - 0) ∧
      ∀ i, i < l.length →
        l.getD i (trailView defaultTAuditRecord) =
          trailView (trailS2.auditRecords.getD (0 + i) defaultTAuditRecord) :=
  claim_C8_getAuditBatch trailS2 0 5 (by decide)

/-! ## Express/Mongoose backend model

Documents of the `Proposal`, `Vote` and `OfficialResponse` Mongoose models,
restricted to the fields the vote and official-response controllers touch.
Statuses are the schema's string enums, modelled as plain strings exactly as
the controllers compare them. -/

/-- A vote choice (`Vote.vote`, enum `yes | no | abstain`). -/
inductive Choice
  | yes
  | no
  | abstain
deriving DecidableEq, Repr

/-- `Proposal.voteCount` (JS numbers, modelled as `Int`). -/
structure VoteCount where
  yes : Int
  no : Int
  abstain : Int
deriving DecidableEq, Repr

/-- A `Proposal` document (fields used by the vote / response flows). -/
structure SProposal where
  pid : String
  author : String
  status : String
  voteCount : VoteCount
deriving DecidableEq, Repr

/-- A `Vote` document. -/
structure SVote where
  vid : String
  proposal : String
  user : String
  vote : Choice
deriving DecidableEq, Repr

/-- An `OfficialResponse` document (fields used by the controller). -/
structure SResponse where
  rcid : String
  proposal : String
  respondent : String
  status : String
  isVerified : Bool
  verificationProof : Option String
  response : String
deriving DecidableEq, Repr

/-- The relevant collections of the Mongo database. -/
structure ServerState where
  proposals : List SProposal
  votes : List SVote
  responses : List SResponse
deriving DecidableEq, Repr

/-- Error responses of the controllers, by the spec's taxonomy. -/
inductive SError
  | notFound           -- 404 "... not found ..."
  | votingClosed       -- 400 "Proposal is not currently open for voting" / "Voting period has ended"
  | alreadyVoted       -- 400 "You have already voted on this proposal"
  | notAuthorized      -- 401/403 "Not authorized ..."
  | duplicateResponse  -- 400 "An official response already exists for this proposal"
  | blockchainFailed   -- 500 "Blockchain verification failed"
deriving DecidableEq, Repr

/-- `proposal.voteCount[c] += 1`. -/
def bump (vc : VoteCount) (c : Choice) : VoteCount :=
  match c with
  | .yes => { vc with yes := vc.yes + 1 }
  | .no => { vc with no := vc.no + 1 }
  | .abstain => { vc with abstain := vc.abstain + 1 }

/-- `proposal.voteCount[c] -= 1`. -/
def unbump (vc : VoteCount) (c : Choice) : VoteCount :=
  match c with
  | .yes => { vc with yes := vc.yes - 1 }
  | .no => { vc with no := vc.no - 1 }
  | .abstain => { vc with abstain := vc.abstain - 1 }

/-- Read one bucket of a `voteCount`. -/
def countOf (vc : VoteCount) (c : Choice) : Int :=
  match c with
  | .yes => vc.yes
  | .no => vc.no
  | .abstain => vc.abstain

/-- `proposal.save()` after mutating the document found by id: replace the
matching document in the collection. -/
def updateProposalDoc (ps : List SProposal) (pid : String)
    (f : SProposal → SProposal) : List SProposal :=
  ps.map (fun p => if p.pid == pid then f p else p)

/-- Mutation applied to the voted proposal by `addVote`. -/
def bumpCount (choice : Choice) (q : SProposal) : SProposal :=
  { q with voteCount := bump q.voteCount choice }

/-- Mutation applied to the proposal by `updateVote`: decrement the old
bucket, increment the new one. -/
def rebumpCount (oldChoice newChoice : Choice) (q : SProposal) : SProposal :=
  { q with voteCount := bump (unbump q.voteCount oldChoice) newChoice }

/-- Overwrite a proposal's status field. -/
def setStatusField (newStatus : String) (q : SProposal) : SProposal :=
  { q with status := newStatus }

/-- `Proposal.create` on the controller's create path: fresh document id,
vote counts start at the schema defaults `{yes: 0, no: 0, abstain: 0}`. -/
def serverCreateProposal (st : ServerState) (pid author status : String) :
    ServerState :=
  { st with proposals := st.proposals ++
      [{ pid := pid, author := author, status := status,
         voteCount := { yes := 0, no := 0, abstain := 0 } }] }

/-- A direct admin/controller status write on a proposal
(`Proposal.findByIdAndUpdate(id, {status})`). -/
def setProposalStatus (st : ServerState) (pid newStatus : String) :
    ServerState :=
  { st with proposals := updateProposalDoc st.proposals pid (setStatusField newStatus) }

/-- `addVote` (`exports.addVote`, votes controller): 404 if the proposal is
missing, 400 if its status is not `"voting"`, 400 if a `(user, proposal)`
vote already exists; otherwise create the vote and bump the tally bucket. -/
def addVote (st : ServerState) (uid proposalId : String) (choice : Choice)
    (vid : String) : Except SError ServerState :=
  match st.proposals.find? (fun p => p.pid == proposalId) with
  | none => .error .notFound
  | some p =>
    if p.status ≠ "voting" then .error .votingClosed
    else if (st.votes.find? (fun v => v.user == uid && v.proposal == proposalId)).isSome then
      .error .alreadyVoted
    else
      .ok { st with
        votes := st.votes ++
          [{ vid := vid, proposal := proposalId, user := uid, vote := choice }],
        proposals := updateProposalDoc st.proposals proposalId (bumpCount choice) }

/-- `getVotes`: the `(yes, no, abstain, total)` quadruple the controller
returns. -/
def getVotes (st : ServerState) (proposalId : String) :
    Except SError (Int × Int × Int × Int) :=
  match st.proposals.find? (fun p => p.pid == proposalId) with
  | none => .error .notFound
  | some p =>
      .ok (p.voteCount.yes, p.voteCount.no, p.voteCount.abstain,
           p.voteCount.yes + p.voteCount.no + p.voteCount.abstain)

/-- `Vote.findByIdAndUpdate(voteId, {vote: newChoice})` as a per-document
rewrite. -/
def replaceVote (voteId : String) (newChoice : Choice) (w : SVote) : SVote :=
  if w.vid == voteId then { w with vote := newChoice } else w

/-- `updateVote`: 404 if the vote is missing, 401 if it belongs to another
user, 400 unless the proposal is still `"voting"`; otherwise decrement the
old bucket, increment the new one and rewrite the vote's choice. -/
def updateVote (st : ServerState) (uid voteId : String) (newChoice : Choice) :
    Except SError ServerState :=
  match st.votes.find? (fun w => w.vid == voteId) with
  | none => .error .notFound
  | some v =>
    if v.user ≠ uid then .error .notAuthorized
    else match st.proposals.find? (fun q => q.pid == v.proposal) with
      | none => .error .notFound
      | some p =>
        if p.status ≠ "voting" then .error .votingClosed
        else
          .ok { st with
            proposals := updateProposalDoc st.proposals v.proposal (rebumpCount v.vote newChoice),
            votes := st.votes.map (replaceVote voteId newChoice) }

/-- The status string the official-response controller writes onto the
proposal for a given response status. -/
def mapRespStatus (rs : String) : String :=
  if rs = "approved" then "approved"
  else if rs = "rejected" then "rejected"
  else if rs = "partially_approved" then "partially_approved"
  else "under_review"

/-- `createOfficialResponse`: 404 if the proposal is missing, 403 unless
the user is a government official, 400 if a response already exists for the
proposal; optional blockchain proof (`proofResult = none` models a failing
blockchain call); then create the response and synchronise the proposal's
status. -/
def createOfficialResponse (st : ServerState) (uid : String)
    (isOfficial : Bool) (proposalId rstatus : String) (isVerified : Bool)
    (rtext rcid : String) (proofResult : Option String) :
    Except SError ServerState :=
  match st.proposals.find? (fun p => p.pid == proposalId) with
  | none => .error .notFound
  | some _ =>
    if ¬ isOfficial then .error .notAuthorized
    else if (st.responses.find? (fun r => r.proposal == proposalId)).isSome then
      .error .duplicateResponse
    else if isVerified ∧ proofResult = none then .error .blockchainFailed
    else
      .ok { st with
        responses := st.responses ++
          [{ rcid := rcid, proposal := proposalId, respondent := uid,
             status := rstatus, isVerified := isVerified,
             verificationProof := if isVerified then proofResult else none,
             response := rtext }],
        proposals := updateProposalDoc st.proposals proposalId (setStatusField (mapRespStatus rstatus)) }

/-- The update body of a `PUT /official-responses/:id` request: fields are
`none` when absent from the request. -/
structure RespBody where
  status : Option String
  isVerified : Bool
  response : Option String
deriving DecidableEq, Repr

/-- `OfficialResponse.findByIdAndUpdate(id, req.body, {new: true})`:
overwrite the fields present in the body; `newProof` is the
`verificationProof` the controller may have injected into the body. -/
def applyRespUpdate (r : SResponse) (b : RespBody) (newProof : Option String) :
    SResponse :=
  { r with
    status := b.status.getD r.status,
    response := b.response.getD r.response,
    isVerified := b.isVerified,
    verificationProof := newProof.or r.verificationProof }

/-- The state produced by the tail of `updateOfficialResponse`: rewrite the
response document, then run the proposal-status synchronisation whose guard
re-reads the already-updated response (`new: true`). -/
def respUpdatedState (st : ServerState) (responseId : String) (r : SResponse)
    (b : RespBody) (newProof : Option String) : ServerState :=
  { st with
    responses := st.responses.map
      (fun w => if w.rcid == responseId then applyRespUpdate r b newProof else w),
    proposals :=
      if b.status.isSome ∧ b.status ≠ some (applyRespUpdate r b newProof).status then
        updateProposalDoc st.proposals r.proposal (setStatusField (mapRespStatus (b.status.getD "")))
      else st.proposals }

/-- `updateOfficialResponse`: 404 if the response is missing, 403 unless
the requester owns it or is an admin; when the body changes the status and
requests verification, obtain a blockchain proof (failure → 500); then
apply the update and the (dead) proposal-status synchronisation. -/
def updateOfficialResponse (st : ServerState) (uid : String) (isAdmin : Bool)
    (responseId : String) (b : RespBody) (proofResult : Option String) :
    Except SError ServerState :=
  match st.responses.find? (fun r => r.rcid == responseId) with
  | none => .error .notFound
  | some r =>
    if r.respondent ≠ uid ∧ ¬ isAdmin then .error .notAuthorized
    else if b.status.isSome ∧ b.status ≠ some r.status ∧ b.isVerified then
      match proofResult with
      | none => .error .blockchainFailed
      | some pr => .ok (respUpdatedState st responseId r b (some pr))
    else .ok (respUpdatedState st responseId r b none)

/-! ## Claim C3 -/

def pClosed : SProposal :=
  { pid := "P1", author := "u0", status := "approved",
    voteCount := { yes := 1, no := 0, abstain := 0 } }

/-- A state whose proposal `P1` has left the voting stage and already holds
a vote by user `u1`. -/
def stClosedVoted : ServerState :=
  { proposals := [pClosed],
    votes := [{ vid := "v1", proposal := "P1", user := "u1", vote := Choice.yes }],
    responses := [] }

/-- **C3, counterexample.**  The status check precedes the duplicate-vote
check: on a proposal that is no longer `"voting"`, a second vote by the
same user fails with the voting-closed error, not with `AlreadyVoted` as
the claim requires for every state in which a vote record exists. -/
theorem claim_C3_counterexample :
    (stClosedVoted.votes.find?
        (fun v => v.user == "u1" && v.proposal == "P1")).isSome = true ∧
    addVote stClosedVoted "u1" "P1" Choice.yes "v2" =
      .error SError.votingClosed ∧
    SError.votingClosed ≠ SError.alreadyVoted := by
  refine ⟨rfl, rfl, by decide⟩

/-- **C3, amended.**  When a vote record for `(proposal, voter)` already
exists, a second `addVote` by that voter always fails (the error path
returns before any mutation, so tallies and vote records are unchanged):
with `AlreadyVoted` when the proposal is still open for voting, and with
the voting-closed error otherwise. -/
theorem claim_C3_addVote_duplicate (st : ServerState) (uid proposalId : String)
    (choice : Choice) (vid : String) (p : SProposal)
    (hp : st.proposals.find? (fun q => q.pid == proposalId) = some p)
    (hdup : (st.votes.find?
        (fun v => v.user == uid && v.proposal == proposalId)).isSome = true) :
    addVote st uid proposalId choice vid =
      .error (if p.status = "voting" then SError.alreadyVoted
              else SError.votingClosed) := by
  simp only [addVote, hp]
  by_cases hs : p.status = "voting"
  · rw [if_neg (by simp [hs]), if_pos hdup, if_pos hs]
  · rw [if_pos hs, if_neg hs]

/-- Witness for C3 (amended) on the concrete closed-proposal state. -/
theorem claim_C3_witness :
    addVote stClosedVoted "u1" "P1" Choice.yes "v2" =
      .error (if pClosed.status = "voting" then SError.alreadyVoted
              else SError.votingClosed) :=
  claim_C3_addVote_duplicate stClosedVoted "u1" "P1" Choice.yes "v2" pClosed
    rfl rfl

/-! ## Claim C7 -/

/-- A state with one proposal `P1` that already has an official response. -/
def stWithResponse : ServerState :=
  { proposals := [{ pid := "P1", author := "u0", status := "under_review",
                    voteCount := { yes := 0, no := 0, abstain := 0 } }],
    votes := [],
    responses := [{ rcid := "r1", proposal := "P1", respondent := "g1",
                    status := "under_review", isVerified := false,
                    verificationProof := none, response := "t" }] }

/-- **C7.**  Creating an official response for a proposal that already has
one fails with `DuplicateResponse` (one official response per proposal);
the error path returns before any mutation, so the stored response is
unchanged. -/
theorem claim_C7_duplicate_response (st : ServerState)
    (uid proposalId rstatus : String) (isVerified : Bool) (rtext rcid : String)
    (proofResult : Option String)
    (hp : (st.proposals.find? (fun q => q.pid == proposalId)).isSome = true)
    (hdup : (st.responses.find? (fun r => r.proposal == proposalId)).isSome = true) :
    createOfficialResponse st uid true proposalId rstatus isVerified rtext rcid
      proofResult = .error SError.duplicateResponse := by
  obtain ⟨p, hp⟩ := Option.isSome_iff_exists.mp hp
  simp only [createOfficialResponse, hp]
  rw [if_neg (by simp), if_pos hdup]

/-- Witness for C7 on the concrete state with an existing response. -/
theorem claim_C7_witness :
    createOfficialResponse stWithResponse "g2" true "P1" "approved" false "x"
      "r2" none = .error SError.duplicateResponse :=
  claim_C7_duplicate_response stWithResponse "g2" "P1" "approved" false "x"
    "r2" none rfl rfl

/-! ## Claim C10 -/

theorem respUpdatedState_proposals (st : ServerState) (responseId : String)
    (r : SResponse) (b : RespBody) (np : Option String) :
    (respUpdatedState st responseId r b np).proposals = st.proposals := by
  have hcond : ¬ (b.status.isSome ∧
      b.status ≠ some (applyRespUpdate r b np).status) := by
    rintro ⟨h1, h2⟩
    cases hb : b.status with
    | none => rw [hb] at h1; simp at h1
    | some sv =>
        apply h2
        rw [hb]
        simp [applyRespUpdate, hb]
  unfold respUpdatedState
  rw [if_neg hcond]

/-- **C10.**  `updateOfficialResponse` never modifies any `Proposal`
document: the status-synchronisation guard compares the requested status
against the response re-read after the update (`new: true`), so it can
never fire — the proposal collection is unchanged by every successful
call. -/
theorem claim_C10_updateOfficialResponse_frame (st : ServerState)
    (uid : String) (isAdmin : Bool) (responseId : String) (b : RespBody)
    (proofResult : Option String) (st' : ServerState)
    (h : updateOfficialResponse st uid isAdmin responseId b proofResult =
      .ok st') :
    st'.proposals = st.proposals := by
  unfold updateOfficialResponse at h
  split at h
  · exact Except.noConfusion h
  · split at h
    · exact Except.noConfusion h
    · split at h
      · split at h
        · exact Except.noConfusion h
        · injection h with h
          subst h
          exact respUpdatedState_proposals _ _ _ _ _
      · injection h with h
        subst h
        exact respUpdatedState_proposals _ _ _ _ _

/-- The response body used in the C10 witness: it supplies a status. -/
def bodyW : RespBody :=
  { status := some "approved", isVerified := false, response := none }

/-- `stWithResponse` after owner `g1` updates response `r1` to status
`"approved"`. -/
def stWithResponseUpdated : ServerState :=
  { stWithResponse with
    responses := [{ rcid := "r1", proposal := "P1", respondent := "g1",
                    status := "approved", isVerified := false,
                    verificationProof := none, response := "t" }] }

/-- Witness for C10: a concrete successful update that supplies a status
leaves the proposal collection untouched. -/
theorem claim_C10_witness :
    stWithResponseUpdated.proposals = stWithResponse.proposals :=
  claim_C10_updateOfficialResponse_frame stWithResponse "g1" false "r1" bodyW
    none stWithResponseUpdated rfl

/-! ## Vote-count bookkeeping lemmas -/

/-- Number of vote records for proposal `pid` with choice `c` (as the JS
number the controllers keep in `voteCount`). -/
def tallyOf (votes : List SVote) (pid : String) (c : Choice) : Int :=
  ((votes.filter (fun v => v.proposal == pid && v.vote == c)).length : Int)

theorem tallyOf_nil (pid : String) (c : Choice) : tallyOf [] pid c = 0 := rfl

theorem tallyOf_cons (w : SVote) (rest : List SVote) (pid : String) (c : Choice) :
    tallyOf (w :: rest) pid c =
      (if w.proposal == pid && w.vote == c then 1 else 0) + tallyOf rest pid c := by
  unfold tallyOf
  by_cases hw : (w.proposal == pid && w.vote == c) = true
  · rw [List.filter_cons_of_pos (by exact hw), if_pos hw]
    push_cast [List.length_cons]
    ring
  · rw [List.filter_cons_of_neg (by exact hw), if_neg hw]
    ring

theorem tallyOf_append (l1 l2 : List SVote) (pid : String) (c : Choice) :
    tallyOf (l1 ++ l2) pid c = tallyOf l1 pid c + tallyOf l2 pid c := by
  unfold tallyOf
  rw [List.filter_append, List.length_append]
  push_cast
  ring

/-- Splitting the per-proposal record count by choice. -/
theorem tallyOf_total (votes : List SVote) (pid : String) :
    tallyOf votes pid .yes + tallyOf votes pid .no + tallyOf votes pid .abstain =
      ((votes.filter (fun v => v.proposal == pid)).length : Int) := by
  induction votes with
  | nil => rfl
  | cons w rest ih =>
      rw [tallyOf_cons, tallyOf_cons, tallyOf_cons, List.filter_cons]
      by_cases hw : (w.proposal == pid) = true
      · cases hv : w.vote <;>
          simp only [hw, hv, Bool.true_and, if_true] <;>
          push_cast [List.length_cons] <;>
          simp <;> omega
      · simp only [hw, Bool.false_and, if_false]
        simpa using ih

theorem countOf_bump (vc : VoteCount) (c c' : Choice) :
    countOf (bump vc c) c' = countOf vc c' + (if c = c' then 1 else 0) := by
  cases c <;> cases c' <;> simp [bump, countOf]

theorem countOf_unbump (vc : VoteCount) (c c' : Choice) :
    countOf (unbump vc c) c' = countOf vc c' - (if c = c' then 1 else 0) := by
  cases c <;> cases c' <;> simp [unbump, countOf]

theorem replaceVote_proposal (voteId : String) (newChoice : Choice) (w : SVote) :
    (replaceVote voteId newChoice w).proposal = w.proposal := by
  unfold replaceVote
  split <;> rfl

theorem replaceVote_user (voteId : String) (newChoice : Choice) (w : SVote) :
    (replaceVote voteId newChoice w).user = w.user := by
  unfold replaceVote
  split <;> rfl

theorem replaceVote_vid (voteId : String) (newChoice : Choice) (w : SVote) :
    (replaceVote voteId newChoice w).vid = w.vid := by
  unfold replaceVote
  split <;> rfl

/-- Rewriting the choice of the (unique, by `Nodup` of ids) vote found by
`voteId` changes each per-choice tally by exactly the old/new indicator. -/
theorem tallyOf_replace (votes : List SVote) (voteId : String)
    (newChoice : Choice) (v : SVote)
    (hfind : votes.find? (fun w => w.vid == voteId) = some v)
    (hnd : (votes.map SVote.vid).Nodup) (pid : String) (c : Choice) :
    tallyOf (votes.map (replaceVote voteId newChoice)) pid c =
      tallyOf votes pid c
        - (if v.proposal == pid && v.vote == c then 1 else 0)
        + (if v.proposal == pid && newChoice == c then 1 else 0) := by
  induction votes with
  | nil => simp at hfind
  | cons w rest ih =>
      rw [List.map_cons] at *
      rw [List.nodup_cons] at hnd
      cases hw : (w.vid == voteId) with
      | true =>
        simp only [List.find?_cons, hw, Option.some.injEq] at hfind
        subst hfind
        have hrest : rest.map (replaceVote voteId newChoice) = rest := by
          have hid : ∀ u ∈ rest, replaceVote voteId newChoice u = u := by
            intro u hu
            have hne : ¬ (u.vid == voteId) = true := by
              intro hbeq
              apply hnd.1
              rw [eq_of_beq hw, ← eq_of_beq hbeq]
              exact List.mem_map_of_mem SVote.vid hu
            unfold replaceVote
            rw [if_neg hne]
          calc rest.map (replaceVote voteId newChoice)
              = rest.map id := List.map_congr_left hid
            _ = rest := List.map_id rest
        rw [hrest, tallyOf_cons, tallyOf_cons]
        have hprop : (replaceVote voteId newChoice w).proposal = w.proposal :=
          replaceVote_proposal _ _ _
        have hvote : (replaceVote voteId newChoice w).vote = newChoice := by
          unfold replaceVote
          rw [if_pos hw]
        rw [hprop, hvote]
        split_ifs <;> omega
      | false =>
        simp only [List.find?_cons, hw] at hfind
        have hrep : replaceVote voteId newChoice w = w := by
          unfold replaceVote
          rw [if_neg (by simp [hw])]
        rw [hrep, tallyOf_cons, tallyOf_cons, ih hfind hnd.2]
        ring

/-! ## Backend transition system -/

/-- One controller operation on the backend state.  Freshness hypotheses
model Mongo's unique `_id` assignment on document creation. -/
inductive ServerStep : ServerState → ServerState → Prop
  | createP (st : ServerState) (pid author status : String)
      (hfresh : ∀ p ∈ st.proposals, p.pid ≠ pid) :
      ServerStep st (serverCreateProposal st pid author status)
  | vote (st : ServerState) (uid proposalId : String) (choice : Choice)
      (vid : String) (st' : ServerState)
      (hfresh : ∀ v ∈ st.votes, v.vid ≠ vid) :
      addVote st uid proposalId choice vid = .ok st' → ServerStep st st'
  | changeVote (st : ServerState) (uid voteId : String) (newChoice : Choice)
      (st' : ServerState) :
      updateVote st uid voteId newChoice = .ok st' → ServerStep st st'
  | setStatus (st : ServerState) (pid newStatus : String) :
      ServerStep st (setProposalStatus st pid newStatus)
  | createResp (st : ServerState) (uid : String) (isOfficial : Bool)
      (proposalId rstatus : String) (isVerified : Bool) (rtext rcid : String)
      (proofResult : Option String) (st' : ServerState) :
      createOfficialResponse st uid isOfficial proposalId rstatus isVerified
        rtext rcid proofResult = .ok st' → ServerStep st st'
  | updateResp (st : ServerState) (uid : String) (isAdmin : Bool)
      (responseId : String) (b : RespBody) (proofResult : Option String)
      (st' : ServerState) :
      updateOfficialResponse st uid isAdmin responseId b proofResult = .ok st' →
      ServerStep st st'

/-- Backend states reachable from the empty database. -/
inductive ServerReachable : ServerState → Prop
  | init : ServerReachable { proposals := [], votes := [], responses := [] }
  | step (s s' : ServerState) : ServerReachable s → ServerStep s s' →
      ServerReachable s'

/-- The voting bookkeeping invariant: per-choice tallies match the vote
records, vote document ids are unique, each `(proposal, user)` pair occurs
at most once, and votes only reference existing proposals. -/
structure ServerInvCore (proposals : List SProposal) (votes : List SVote) :
    Prop where
  counts : ∀ p ∈ proposals, ∀ c, countOf p.voteCount c = tallyOf votes p.pid c
  vidsNodup : (votes.map SVote.vid).Nodup
  pairsDistinct : votes.Pairwise
    (fun v w => ¬ (v.proposal = w.proposal ∧ v.user = w.user))
  votesHaveProposals : ∀ v ∈ votes, v.proposal ∈ proposals.map SProposal.pid

/-! ### Success-case characterisations of the vote controllers -/

theorem addVote_ok (st : ServerState) (uid proposalId : String)
    (choice : Choice) (vid : String) (st' : ServerState)
    (h : addVote st uid proposalId choice vid = .ok st') :
    ∃ p, st.proposals.find? (fun q => q.pid == proposalId) = some p ∧
      p.status = "voting" ∧
      st.votes.find? (fun v => v.user == uid && v.proposal == proposalId) = none ∧
      st'.votes = st.votes ++
        [{ vid := vid, proposal := proposalId, user := uid, vote := choice }] ∧
      st'.proposals = updateProposalDoc st.proposals proposalId (bumpCount choice) ∧
      st'.responses = st.responses := by
  unfold addVote at h
  split at h
  · exact Except.noConfusion h
  · rename_i p hp
    split at h
    · exact Except.noConfusion h
    · rename_i hstatus
      split at h
      · exact Except.noConfusion h
      · rename_i hdup
        injection h with h
        subst h
        refine ⟨p, hp, not_not.mp hstatus, ?_, rfl, rfl, rfl⟩
        cases hfind : st.votes.find?
            (fun v => v.user == uid && v.proposal == proposalId) with
        | none => rfl
        | some v =>
            rw [hfind] at hdup
            simp at hdup

theorem updateVote_ok (st : ServerState) (uid voteId : String)
    (newChoice : Choice) (st' : ServerState)
    (h : updateVote st uid voteId newChoice = .ok st') :
    ∃ v p, st.votes.find? (fun w => w.vid == voteId) = some v ∧
      v.user = uid ∧
      st.proposals.find? (fun q => q.pid == v.proposal) = some p ∧
      p.status = "voting" ∧
      st'.proposals =
        updateProposalDoc st.proposals v.proposal (rebumpCount v.vote newChoice) ∧
      st'.votes = st.votes.map (replaceVote voteId newChoice) ∧
      st'.responses = st.responses := by
  unfold updateVote at h
  split at h
  · exact Except.noConfusion h
  · rename_i v hv
    split at h
    · exact Except.noConfusion h
    · rename_i huser
      split at h
      · exact Except.noConfusion h
      · rename_i p hp
        split at h
        · exact Except.noConfusion h
        · rename_i hstatus
          injection h with h
          subst h
          exact ⟨v, p, hv, not_not.mp huser, hp, not_not.mp hstatus,
            rfl, rfl, rfl⟩

theorem createOfficialResponse_ok (st : ServerState) (uid : String)
    (isOfficial : Bool) (proposalId rstatus : String) (isVerified : Bool)
    (rtext rcid : String) (proofResult : Option String) (st' : ServerState)
    (h : createOfficialResponse st uid isOfficial proposalId rstatus isVerified
      rtext rcid proofResult = .ok st') :
    st'.votes = st.votes ∧
    st'.proposals = updateProposalDoc st.proposals proposalId
      (setStatusField (mapRespStatus rstatus)) := by
  unfold createOfficialResponse at h
  split at h
  · exact Except.noConfusion h
  · split at h
    · exact Except.noConfusion h
    · split at h
      · exact Except.noConfusion h
      · split at h
        · exact Except.noConfusion h
        · injection h with h
          subst h
          exact ⟨rfl, rfl⟩

theorem updateOfficialResponse_ok (st : ServerState) (uid : String)
    (isAdmin : Bool) (responseId : String) (b : RespBody)
    (proofResult : Option String) (st' : ServerState)
    (h : updateOfficialResponse st uid isAdmin responseId b proofResult =
      .ok st') :
    st'.votes = st.votes ∧ st'.proposals = st.proposals := by
  unfold updateOfficialResponse at h
  split at h
  · exact Except.noConfusion h
  · split at h
    · exact Except.noConfusion h
    · split at h
      · split at h
        · exact Except.noConfusion h
        · injection h with h
          subst h
          exact ⟨rfl, respUpdatedState_proposals _ _ _ _ _⟩
      · injection h with h
        subst h
        exact ⟨rfl, respUpdatedState_proposals _ _ _ _ _⟩

/-! ### Invariant preservation -/

theorem updateProposalDoc_map_pid (ps : List SProposal) (pid : String)
    (f : SProposal → SProposal) (hf : ∀ q, (f q).pid = q.pid) :
    (updateProposalDoc ps pid f).map SProposal.pid = ps.map SProposal.pid := by
  unfold updateProposalDoc
  rw [List.map_map]
  apply List.map_congr_left
  intro q hq
  by_cases h : (q.pid == pid) = true
  · simp only [Function.comp_apply]
    rw [if_pos h, hf]
  · simp only [Function.comp_apply]
    rw [if_neg h]

theorem mem_updateProposalDoc (ps : List SProposal) (pid : String)
    (f : SProposal → SProposal) (q' : SProposal)
    (h : q' ∈ updateProposalDoc ps pid f) :
    ∃ q ∈ ps, q' = if q.pid == pid then f q else q := by
  unfold updateProposalDoc at h
  obtain ⟨q, hq, hq'⟩ := List.mem_map.mp h
  exact ⟨q, hq, hq'.symm⟩

theorem serverInvCore_nil : ServerInvCore [] [] :=
  ⟨by intro p hp; simp at hp, List.nodup_nil, List.Pairwise.nil,
   by intro v hv; simp at hv⟩

theorem serverInvCore_create (proposals : List SProposal) (votes : List SVote)
    (hinv : ServerInvCore proposals votes) (pid author status : String)
    (hfresh : ∀ p ∈ proposals, p.pid ≠ pid) :
    ServerInvCore (proposals ++
      [{ pid := pid, author := author, status := status,
         voteCount := { yes := 0, no := 0, abstain := 0 } }]) votes := by
  refine ⟨?_, hinv.vidsNodup, hinv.pairsDistinct, ?_⟩
  · intro p' hp' c
    rcases List.mem_append.mp hp' with hmem | hmem
    · exact hinv.counts p' hmem c
    · have hp'' := List.mem_singleton.mp hmem
      subst hp''
      have hzero : tallyOf votes pid c = 0 := by
        unfold tallyOf
        have : votes.filter (fun v => v.proposal == pid && v.vote == c) = [] := by
          rw [List.filter_eq_nil_iff]
          intro v hv hpred
          have hmm := hinv.votesHaveProposals v hv
          rw [eq_of_beq (Bool.and_elim_left hpred)] at hmm
          obtain ⟨q, hq, hq'⟩ := List.mem_map.mp hmm
          exact hfresh q hq hq'
        rw [this]
        rfl
      rw [hzero]
      cases c <;> rfl
  · intro v hv
    rw [List.map_append]
    exact List.mem_append_left _ (hinv.votesHaveProposals v hv)

theorem serverInvCore_statusOnly (proposals : List SProposal)
    (votes : List SVote) (hinv : ServerInvCore proposals votes) (pid : String)
    (f : SProposal → SProposal) (hpid : ∀ q, (f q).pid = q.pid)
    (hvc : ∀ q, (f q).voteCount = q.voteCount) :
    ServerInvCore (updateProposalDoc proposals pid f) votes := by
  refine ⟨?_, hinv.vidsNodup, hinv.pairsDistinct, ?_⟩
  · intro p' hp' c
    obtain ⟨q, hq, hq'⟩ := mem_updateProposalDoc _ _ _ _ hp'
    subst hq'
    by_cases h : (q.pid == pid) = true
    · rw [if_pos h, hvc, hpid]
      exact hinv.counts q hq c
    · rw [if_neg h]
      exact hinv.counts q hq c
  · intro v hv
    rw [updateProposalDoc_map_pid _ _ _ hpid]
    exact hinv.votesHaveProposals v hv

theorem find?_pred {α : Type} (p : α → Bool) (l : List α) (a : α)
    (h : l.find? p = some a) : p a = true :=
  List.find?_some h

theorem serverInvCore_addVote (st : ServerState) (uid proposalId : String)
    (choice : Choice) (vid : String) (st' : ServerState)
    (hinv : ServerInvCore st.proposals st.votes)
    (hfresh : ∀ v ∈ st.votes, v.vid ≠ vid)
    (h : addVote st uid proposalId choice vid = .ok st') :
    ServerInvCore st'.proposals st'.votes := by
  obtain ⟨p, hp, hstatus, hnone, hvotes, hprops, hresp⟩ :=
    addVote_ok st uid proposalId choice vid st' h
  rw [hvotes, hprops]
  have hnv : ∀ v ∈ st.votes, ¬ (v.user = uid ∧ v.proposal = proposalId) := by
    intro v hv hvp
    have hx := List.find?_eq_none.mp hnone v hv
    simp [hvp.1, hvp.2] at hx
  refine ⟨?_, ?_, ?_, ?_⟩
  · intro p' hp' c
    obtain ⟨q, hq, hq'⟩ := mem_updateProposalDoc _ _ _ _ hp'
    subst hq'
    rw [tallyOf_append]
    by_cases hqp : (q.pid == proposalId) = true
    · rw [if_pos hqp]
      have h1 : (bumpCount choice q).voteCount = bump q.voteCount choice := rfl
      have h2 : (bumpCount choice q).pid = q.pid := rfl
      rw [h1, h2, countOf_bump, hinv.counts q hq c, tallyOf_cons, tallyOf_nil]
      have hqpid : proposalId = q.pid := (eq_of_beq hqp).symm
      simp [← hqpid, beq_iff_eq]
    · rw [if_neg hqp]
      rw [hinv.counts q hq c, tallyOf_cons, tallyOf_nil]
      have hne : (proposalId == q.pid) = false := by
        rw [beq_eq_false_iff_ne]
        intro hh
        exact hqp (beq_of_eq hh.symm)
      simp [hne]
  · rw [List.map_append]
    refine List.Nodup.append hinv.vidsNodup (List.nodup_singleton _) ?_
    intro a ha hb
    simp only [List.map_cons, List.map_nil, List.mem_singleton] at hb
    subst hb
    obtain ⟨v, hv, hveq⟩ := List.mem_map.mp ha
    exact hfresh v hv hveq
  · apply List.pairwise_append.mpr
    refine ⟨hinv.pairsDistinct, List.pairwise_singleton _ _, ?_⟩
    intro v hv w hw
    have hw' := List.mem_singleton.mp hw
    subst hw'
    intro hcontra
    exact hnv v hv ⟨hcontra.2, hcontra.1⟩
  · intro v hv
    rw [updateProposalDoc_map_pid]
    · rcases List.mem_append.mp hv with hv | hv
      · exact hinv.votesHaveProposals v hv
      · have hv' := List.mem_singleton.mp hv
        subst hv'
        have hpmem := List.mem_of_find?_eq_some hp
        have hfp := find?_pred (fun q => q.pid == proposalId) st.proposals p hp
        have hppid : p.pid = proposalId := eq_of_beq hfp
        show proposalId ∈ st.proposals.map SProposal.pid
        rw [← hppid]
        exact List.mem_map_of_mem SProposal.pid hpmem
    · intro q
      rfl

theorem serverInvCore_updateVote (st : ServerState) (uid voteId : String)
    (newChoice : Choice) (st' : ServerState)
    (hinv : ServerInvCore st.proposals st.votes)
    (h : updateVote st uid voteId newChoice = .ok st') :
    ServerInvCore st'.proposals st'.votes := by
  obtain ⟨v, p, hv, huser, hp, hstatus, hprops, hvotes, hresp⟩ :=
    updateVote_ok st uid voteId newChoice st' h
  rw [hvotes, hprops]
  have hvidmap : (st.votes.map (replaceVote voteId newChoice)).map SVote.vid =
      st.votes.map SVote.vid := by
    rw [List.map_map]
    apply List.map_congr_left
    intro w hw
    simp only [Function.comp_apply]
    exact replaceVote_vid _ _ _
  refine ⟨?_, ?_, ?_, ?_⟩
  · intro p' hp' c
    obtain ⟨q, hq, hq'⟩ := mem_updateProposalDoc _ _ _ _ hp'
    subst hq'
    rw [tallyOf_replace st.votes voteId newChoice v hv hinv.vidsNodup]
    by_cases hqp : (q.pid == v.proposal) = true
    · rw [if_pos hqp]
      have h1 : (rebumpCount v.vote newChoice q).voteCount =
          bump (unbump q.voteCount v.vote) newChoice := rfl
      have h2 : (rebumpCount v.vote newChoice q).pid = q.pid := rfl
      rw [h1, h2, countOf_bump, countOf_unbump, hinv.counts q hq c]
      have hvq : v.proposal = q.pid := (eq_of_beq hqp).symm
      simp only [← hvq, beq_self_eq_true, Bool.true_and, beq_iff_eq]
    · rw [if_neg hqp]
      rw [hinv.counts q hq c]
      have hne : (v.proposal == q.pid) = false := by
        rw [beq_eq_false_iff_ne]
        intro hh
        exact hqp (beq_of_eq hh.symm)
      simp [hne]
  · rw [hvidmap]
    exact hinv.vidsNodup
  · refine List.Pairwise.map _ ?_ hinv.pairsDistinct
    intro a b hab hcontra
    apply hab
    rwa [replaceVote_proposal, replaceVote_proposal,
      replaceVote_user, replaceVote_user] at hcontra
  · intro w hw
    obtain ⟨u, hu, hueq⟩ := List.mem_map.mp hw
    subst hueq
    rw [replaceVote_proposal, updateProposalDoc_map_pid]
    · exact hinv.votesHaveProposals u hu
    · intro q
      rfl

theorem mem_filter_pred {α : Type} (p : α → Bool) (l : List α) (a : α)
    (h : a ∈ l.filter p) : p a = true :=
  List.of_mem_filter h

/-- The bookkeeping invariant holds in every reachable backend state. -/
theorem serverReachable_inv (st : ServerState) (h : ServerReachable st) :
    ServerInvCore st.proposals st.votes := by
  induction h with
  | init => exact serverInvCore_nil
  | step s t hr hstep ih =>
      cases hstep with
      | createP pid author status hfresh =>
          exact serverInvCore_create s.proposals s.votes ih pid author status
            hfresh
      | vote uid proposalId choice vid u hfresh h =>
          exact serverInvCore_addVote s uid proposalId choice vid _ ih hfresh h
      | changeVote uid voteId newChoice u h =>
          exact serverInvCore_updateVote s uid voteId newChoice _ ih h
      | setStatus pid newStatus =>
          exact serverInvCore_statusOnly s.proposals s.votes ih pid _
            (fun q => rfl) (fun q => rfl)
      | createResp uid isOfficial proposalId rstatus isVerified rtext rcid
          proofResult u h =>
          obtain ⟨hvv, hpp⟩ := createOfficialResponse_ok s uid isOfficial
            proposalId rstatus isVerified rtext rcid proofResult _ h
          rw [hvv, hpp]
          exact serverInvCore_statusOnly s.proposals s.votes ih proposalId _
            (fun q => rfl) (fun q => rfl)
      | updateResp uid isAdmin responseId b proofResult u h =>
          obtain ⟨hvv, hpp⟩ := updateOfficialResponse_ok s uid isAdmin
            responseId b proofResult _ h
          rw [hvv, hpp]
          exact ih

/-! ## Claim C2 -/

def exampleP1 : SProposal :=
  { pid := "P1", author := "u0", status := "voting",
    voteCount := { yes := 0, no := 0, abstain := 0 } }

/-- The example run of the spec: proposal `P1` created (open for voting). -/
def exampleSt1 : ServerState :=
  { proposals := [exampleP1], votes := [], responses := [] }

/-- `exampleSt1` after `u1` votes yes. -/
def exampleSt2 : ServerState :=
  { proposals := [{ exampleP1 with
      voteCount := { yes := 1, no := 0, abstain := 0 } }],
    votes := [{ vid := "v1", proposal := "P1", user := "u1", vote := Choice.yes }],
    responses := [] }

/-- `exampleSt2` after `u2` votes yes. -/
def exampleSt3 : ServerState :=
  { proposals := [{ exampleP1 with
      voteCount := { yes := 2, no := 0, abstain := 0 } }],
    votes := [{ vid := "v1", proposal := "P1", user := "u1", vote := Choice.yes },
              { vid := "v2", proposal := "P1", user := "u2", vote := Choice.yes }],
    responses := [] }

def exampleP4 : SProposal :=
  { exampleP1 with voteCount := { yes := 2, no := 1, abstain := 0 } }

/-- `exampleSt3` after `u3` votes no. -/
def exampleSt4 : ServerState :=
  { proposals := [exampleP4],
    votes := [{ vid := "v1", proposal := "P1", user := "u1", vote := Choice.yes },
              { vid := "v2", proposal := "P1", user := "u2", vote := Choice.yes },
              { vid := "v3", proposal := "P1", user := "u3", vote := Choice.no }],
    responses := [] }

theorem exampleSt1_reachable : ServerReachable exampleSt1 :=
  ServerReachable.step _ _ ServerReachable.init
    (ServerStep.createP { proposals := [], votes := [], responses := [] }
      "P1" "u0" "voting" (by decide))

theorem exampleSt2_reachable : ServerReachable exampleSt2 :=
  ServerReachable.step _ _ exampleSt1_reachable
    (ServerStep.vote exampleSt1 "u1" "P1" Choice.yes "v1" exampleSt2
      (by decide) rfl)

theorem exampleSt3_reachable : ServerReachable exampleSt3 :=
  ServerReachable.step _ _ exampleSt2_reachable
    (ServerStep.vote exampleSt2 "u2" "P1" Choice.yes "v2" exampleSt3
      (by decide) rfl)

theorem exampleSt4_reachable : ServerReachable exampleSt4 :=
  ServerReachable.step _ _ exampleSt3_reachable
    (ServerStep.vote exampleSt3 "u3" "P1" Choice.no "v3" exampleSt4
      (by decide) rfl)

/-- **C2.**  In every reachable backend state, each proposal's
`yes + no + abstain` equals the number of its vote records, and those
records come from pairwise-distinct voters (so they are distinct
`(proposal, voter)` pairs); and on the spec's example run — create `P1`,
then votes yes, yes, no from three distinct voters — `getVotes` returns
`{yes: 2, no: 1, abstain: 0, total: 3}`. -/
theorem claim_C2_tally_consistency :
    (∀ st, ServerReachable st → ∀ p ∈ st.proposals,
      (p.voteCount.yes + p.voteCount.no + p.voteCount.abstain =
        ((st.votes.filter (fun v => v.proposal == p.pid)).length : Int)) ∧
      (st.votes.filter (fun v => v.proposal == p.pid)).Pairwise
        (fun v w => v.user ≠ w.user)) ∧
    (serverCreateProposal { proposals := [], votes := [], responses := [] }
        "P1" "u0" "voting" = exampleSt1 ∧
     addVote exampleSt1 "u1" "P1" Choice.yes "v1" = .ok exampleSt2 ∧
     addVote exampleSt2 "u2" "P1" Choice.yes "v2" = .ok exampleSt3 ∧
     addVote exampleSt3 "u3" "P1" Choice.no "v3" = .ok exampleSt4 ∧
     getVotes exampleSt4 "P1" = .ok (2, 1, 0, 3)) := by
  constructor
  · intro st hst p hp
    have hinv := serverReachable_inv st hst
    constructor
    · have hy := hinv.counts p hp .yes
      have hn := hinv.counts p hp .no
      have ha := hinv.counts p hp .abstain
      have htot := tallyOf_total st.votes p.pid
      calc p.voteCount.yes + p.voteCount.no + p.voteCount.abstain
          = tallyOf st.votes p.pid .yes + tallyOf st.votes p.pid .no +
              tallyOf st.votes p.pid .abstain := by
            rw [← hy, ← hn, ← ha]
            rfl
        _ = _ := htot
    · have hsub : (st.votes.filter (fun v => v.proposal == p.pid)).Pairwise
          (fun v w => ¬ (v.proposal = w.proposal ∧ v.user = w.user)) :=
        List.Pairwise.sublist (List.filter_sublist _) hinv.pairsDistinct
      apply List.Pairwise.imp_of_mem ?_ hsub
      intro a b ha hb hr huser
      apply hr
      refine ⟨?_, huser⟩
      have ha' := mem_filter_pred (fun v => v.proposal == p.pid) st.votes a ha
      have hb' := mem_filter_pred (fun v => v.proposal == p.pid) st.votes b hb
      rw [eq_of_beq ha', eq_of_beq hb']
  · exact ⟨rfl, rfl, rfl, rfl, rfl⟩

/-- Witness for C2 at the example state after the three votes. -/
theorem claim_C2_witness :
    (exampleP4.voteCount.yes + exampleP4.voteCount.no +
        exampleP4.voteCount.abstain =
      ((exampleSt4.votes.filter
          (fun v => v.proposal == exampleP4.pid)).length : Int)) ∧
    (exampleSt4.votes.filter (fun v => v.proposal == exampleP4.pid)).Pairwise
      (fun v w => v.user ≠ w.user) :=
  claim_C2_tally_consistency.1 exampleSt4 exampleSt4_reachable exampleP4
    (List.mem_singleton.mpr rfl)

end TransparenCity
